import Mathlib

/-!
Verification of the Automation Orchestration Engine of the multiplatform
cursor MCP server: a shallow embedding in Lean 4 of the security sanitizer
(`MacOSWindowManager.sanitizeTitle`), the key validator
(`CursorInstanceManagerImpl.validateKeys`), the retry wrapper
(`WindowsApiService.withRetry`), the responsiveness oracles
(`BaseWindowManager.isWindowResponding`, `WindowsApiService.isWindowResponding`),
the input-automation key loop (`InputAutomationService.sendKeys`), the
environment filter (`createSafeEnvironment`) and the instance lifecycle
manager (`CursorInstanceManagerImpl`), together with theorems settling the
specified properties.  JavaScript strings are modelled as `List Char`.
-/

deriving instance DecidableEq for Except

namespace CursorMCP

/-- JavaScript strings, modelled as lists of characters. -/
abbrev Str := List Char

/-- The apostrophe character (code point 39). -/
def apos : Char := Char.ofNat 39

/-- The backslash character. -/
def bslash : Char := Char.ofNat 92

/-- Characters matched by the JavaScript regex class `\s`
(ASCII whitespace plus the Unicode whitespace code points). -/
def isJsWhitespace (c : Char) : Bool :=
  c = ' ' || c = Char.ofNat 9 || c = Char.ofNat 10 || c = Char.ofNat 13 ||
  c = Char.ofNat 11 || c = Char.ofNat 12 || c = Char.ofNat 160 ||
  c = Char.ofNat 0x1680 ||
  (0x2000 ≤ c.toNat && c.toNat ≤ 0x200a) ||
  c = Char.ofNat 0x2028 || c = Char.ofNat 0x2029 || c = Char.ofNat 0x202f ||
  c = Char.ofNat 0x205f || c = Char.ofNat 0x3000 || c = Char.ofNat 0xfeff

/-- The punctuation characters of the character class shared by
`ALLOWED_CHARACTERS` in `macos-manager` and the `allowedKeys` regex in
`CursorInstanceManager`: the literal set
`- _ . ( ) [ ] brace-open brace-close | : ; apostrophe quote < > ? ! @ # $ % caret & * + = tilde / backslash`. -/
def allowedPunct : List Char :=
  ['-', '_', '.', '(', ')', '[', ']', Char.ofNat 123, Char.ofNat 125,
   '|', ':', ';', apos, Char.ofNat 34, '<', '>', '?', '!', '@', '#',
   '$', '%', Char.ofNat 94, '&', '*', '+', '=', Char.ofNat 126, '/', bslash]

/-- One character of the regex class
`[a-zA-Z0-9\s\-_.()[\]{}|:;'"<>?!@#$%^&*+=~/\\]` used both by the title
sanitizer and the key validator. -/
def allowedChar (c : Char) : Bool :=
  (c.isAlpha && c.toNat < 128) || c.isDigit || isJsWhitespace c ||
  allowedPunct.contains c

/-- JavaScript `hay.includes(needle)`: substring containment. -/
def hasSubstring (hay needle : Str) : Bool :=
  if needle.isPrefixOf hay then true
  else
    match hay with
    | [] => false
    | _ :: t => hasSubstring t needle

/-- Maximum window-title length accepted by the sanitizer
(`MAX_TITLE_LENGTH` in `macos-manager`). -/
def MAX_TITLE_LENGTH : Nat := 500

/-- The blocklist of dangerous AppleScript sequences checked by
`sanitizeTitle`, in source order. -/
def dangerousSequences : List Str :=
  ["tell application".toList, "do shell script".toList,
   "system events".toList, "activate".toList, "quit".toList,
   "delete".toList, "move".toList, "copy".toList,
   "run script".toList, "osascript".toList]

/-- Error outcomes of `sanitizeTitle` (each is a thrown `Error` in the
source; the constructors record which check failed). -/
inductive TitleError where
  | emptyTitle : TitleError
  | tooLong : TitleError
  | invalidChars : TitleError
  | forbiddenSequence : Str → TitleError
deriving DecidableEq

/-- JavaScript `s.replace(/c/g, rep)` for a single character pattern:
every occurrence of `c` is replaced by the string `rep`. -/
def replaceChar (c : Char) (rep : Str) : Str → Str
  | [] => []
  | x :: xs => (if x = c then rep else [x]) ++ replaceChar c rep xs

/-- The escaping chain of `sanitizeTitle`: backslash, double quote,
apostrophe, newline, carriage return, tab — applied in source order. -/
def escapeTitle (t : Str) : Str :=
  replaceChar (Char.ofNat 9) [bslash, 't']
    (replaceChar (Char.ofNat 13) [bslash, 'r']
      (replaceChar (Char.ofNat 10) [bslash, 'n']
        (replaceChar apos [bslash, apos]
          (replaceChar (Char.ofNat 34) [bslash, Char.ofNat 34]
            (replaceChar bslash [bslash, bslash] t)))))

/-- The characters rewritten by `escapeTitle`. -/
def escapedChars : List Char :=
  [bslash, Char.ofNat 34, apos, Char.ofNat 10, Char.ofNat 13, Char.ofNat 9]

/-- `MacOSWindowManager.sanitizeTitle`: reject empty titles, titles longer
than 500 characters, titles with a character outside the allowed class, and
titles containing (case-insensitively) a blocklisted sequence; otherwise
return the escaped title. -/
def sanitizeTitle (title : Str) : Except TitleError Str :=
  if title.isEmpty then .error .emptyTitle
  else if MAX_TITLE_LENGTH < title.length then .error .tooLong
  else if !title.all allowedChar then .error .invalidChars
  else
    match dangerousSequences.find?
        (fun d => hasSubstring (title.map Char.toLower) d) with
    | some d => .error (.forbiddenSequence d)
    | none => .ok (escapeTitle title)

/-! ### Key validation (`CursorInstanceManagerImpl.validateKeys`) -/

/-- The bare (unanchored) named alternatives of the `allowedKeys` regex
`^[...]|control|shift|alt|command|enter|tab|escape|backspace|delete|space|up|down|left|right$`:
every alternative except the first and the last carries no anchor. -/
def namedKeyAlternatives : List Str :=
  ["control".toList, "shift".toList, "alt".toList, "command".toList,
   "enter".toList, "tab".toList, "escape".toList, "backspace".toList,
   "delete".toList, "space".toList, "up".toList, "down".toList,
   "left".toList]

/-- The named control keys enumerated by the regex (all fourteen names,
`right` included). -/
def namedControlKeys : List Str := namedKeyAlternatives ++ ["right".toList]

/-- `allowedKeys.test(key)` for the regex above.  Because only the first
alternative is anchored at the start and only the last at the end, the
regex matches when the first character of `key` lies in the character
class, or `key` contains one of the thirteen bare names as a substring, or
`key` ends with `right`. -/
def keyRegexTest (key : Str) : Bool :=
  (match key with
   | [] => false
   | c :: _ => allowedChar c) ||
  namedKeyAlternatives.any (fun n => hasSubstring key n) ||
  "right".toList.isSuffixOf key

/-- Error outcomes of `validateKeys`. -/
inductive KeysError where
  | notNonemptyArray : KeysError
  | tooManyKeys : KeysError
  | invalidKeyFormat : KeysError
  | invalidKey : Str → KeysError
deriving DecidableEq

/-- The per-entry checks of the `keys.map` body, returning the first
error raised, if any: an entry longer than 20 characters raises the
format error, an entry failing the regex raises the invalid-key error. -/
def findKeyError (keys : List Str) : Option KeysError :=
  keys.findSome? fun k =>
    if 20 < k.length then some .invalidKeyFormat
    else if !keyRegexTest k then some (.invalidKey k)
    else none

/-- `CursorInstanceManagerImpl.validateKeys`: reject an empty sequence,
more than 50 entries, an entry longer than 20 characters, or an entry
failing the `allowedKeys` regex; otherwise return the keys unchanged. -/
def validateKeys (keys : List Str) : Except KeysError (List Str) :=
  if keys.isEmpty then .error .notNonemptyArray
  else if 50 < keys.length then .error .tooManyKeys
  else
    match findKeyError keys with
    | some e => .error e
    | none => .ok keys

/-! ### Retry wrapper (`WindowsApiService.withRetry`) -/

/-- Maximum attempts of the retry wrapper (`MAX_RETRIES`). -/
def MAX_RETRIES : Nat := 3

/-- The error surfaced by `withRetry`: the synthetic
`Window is not responding` error, an error thrown by the focus step or the
operation, or the generic `Operation failed after retries` fallback. -/
inductive RetryError (ε : Type) where
  | windowNotResponding : RetryError ε
  | thrown : ε → RetryError ε
  | afterRetries : RetryError ε
deriving DecidableEq

/-- The attempt loop of `withRetry`.  `remaining` counts the attempts
left, `attempt` is the 1-based attempt number, `opCalls` counts
invocations of the operation, and `lastError` is the last caught error.
Per attempt: if the responsiveness oracle reports false the attempt fails
without invoking the operation; otherwise, when focus is required and the
focus step throws, the attempt fails; otherwise the operation runs, a
success returning immediately.  After the final attempt the last error
(or the generic fallback) is thrown. -/
def withRetryAux {ε α : Type} (respond : Nat → Bool)
    (focusErr : Nat → Option ε) (op : Nat → Except ε α)
    (requireFocus : Bool) :
    Nat → Nat → Nat → Option (RetryError ε) → Except (RetryError ε) α × Nat
  | 0, _, opCalls, lastError =>
    (.error (lastError.getD .afterRetries), opCalls)
  | remaining + 1, attempt, opCalls, _lastError =>
    if respond attempt = false then
      withRetryAux respond focusErr op requireFocus remaining (attempt + 1)
        opCalls (some .windowNotResponding)
    else
      match (if requireFocus then focusErr attempt else none) with
      | some e =>
        withRetryAux respond focusErr op requireFocus remaining (attempt + 1)
          opCalls (some (.thrown e))
      | none =>
        match op attempt with
        | .ok v => (.ok v, opCalls + 1)
        | .error e =>
          withRetryAux respond focusErr op requireFocus remaining (attempt + 1)
            (opCalls + 1) (some (.thrown e))

/-- `WindowsApiService.withRetry`, instrumented with the number of
operation invocations.  The oracles are indexed by the attempt number. -/
def withRetry {ε α : Type} (respond : Nat → Bool) (focusErr : Nat → Option ε)
    (op : Nat → Except ε α) (requireFocus : Bool) :
    Except (RetryError ε) α × Nat :=
  withRetryAux respond focusErr op requireFocus MAX_RETRIES 1 0 none

/-! ### Window model and responsiveness oracles -/

/-- `WindowInfo` of `window-manager/types`: platform window id, title,
owning process id and optional bounds. -/
structure WindowInfo where
  id : Nat
  title : Str
  processId : Nat
  bounds : Option (Int × Int × Int × Int)
deriving DecidableEq

/-- Window-manager error taxonomy (`window-manager-errors`): every
constructor is a subclass of `WindowManagerError`. -/
inductive WMError where
  | windowNotFound : Nat → WMError
  | windowNotFoundByTitle : Str → WMError
  | windowFocus : Str → WMError
  | windowResponse : Str → WMError
  | windowClose : Str → WMError
  | inputAutomation : Str → WMError
deriving DecidableEq

/-- `BaseWindowManager.findWindowByProcessId`: linear scan of the fresh
enumeration; throws `WindowNotFoundError` when no window has the process
id.  `getAll` is the outcome of `getAllWindows` (`.error` stands for a
failure outside the window-manager error family, which propagates). -/
def findWindowByProcessId {ε : Type} (getAll : Except ε (List WindowInfo))
    (pid : Nat) : Except (ε ⊕ WMError) WindowInfo :=
  match getAll with
  | .error e => .error (.inl e)
  | .ok ws =>
    match ws.find? (fun w => w.processId = pid) with
    | some w => .ok w
    | none => .error (.inr (.windowNotFound pid))

/-- `BaseWindowManager.isWindowResponding`: look the window up afresh by
process id; a found window yields `true` regardless of its title, a
`WindowManagerError` from the lookup yields `false`, any other error
propagates.  (The `if (!window)` branch of the source is unreachable:
`findWindowByProcessId` throws instead of returning null.) -/
def isWindowResponding {ε : Type} (getAll : Except ε (List WindowInfo))
    (h : WindowInfo) : Except ε Bool :=
  match findWindowByProcessId getAll h.processId with
  | .ok _ => .ok true
  | .error (.inr _) => .ok false
  | .error (.inl e) => .error e

/-- `WindowsApiService.isWindowResponding`, the oracle used by
`WindowsApiService.withRetry`: reads the cached handle's title and
reports whether it is nonempty — no fresh lookup. -/
def waIsWindowResponding (h : WindowInfo) : Bool :=
  !h.title.isEmpty

/-! ### Input automation (`InputAutomationService.sendKeys`) -/

/-- The nut-js key codes reachable from `getKeyCode`: the named entries of
`keyMap` plus the fallback `key.toUpperCase()` value. -/
inductive NKey where
  | leftControl | leftShift | leftAlt | leftCmd
  | enterKey | returnKey | tabKey | escapeKey | backspaceKey
  | deleteKey | spaceKey | upKey | downKey | leftKey | rightKey
  | other : Str → NKey
deriving DecidableEq

/-- `InputAutomationService.getKeyCode`: look the lowercased name up in
`keyMap`, falling back to the uppercased string. -/
def getKeyCode (key : Str) : NKey :=
  let k := key.map Char.toLower
  if k = "control".toList then .leftControl
  else if k = "ctrl".toList then .leftControl
  else if k = "shift".toList then .leftShift
  else if k = "alt".toList then .leftAlt
  else if k = "command".toList then .leftCmd
  else if k = "cmd".toList then .leftCmd
  else if k = "enter".toList then .enterKey
  else if k = "return".toList then .returnKey
  else if k = "tab".toList then .tabKey
  else if k = "escape".toList then .escapeKey
  else if k = "esc".toList then .escapeKey
  else if k = "backspace".toList then .backspaceKey
  else if k = "delete".toList then .deleteKey
  else if k = "space".toList then .spaceKey
  else if k = "up".toList then .upKey
  else if k = "down".toList then .downKey
  else if k = "left".toList then .leftKey
  else if k = "right".toList then .rightKey
  else .other (key.map Char.toUpper)

/-- A raw keyboard event emitted through the nut-js keyboard. -/
inductive KeyEvent where
  | press : NKey → KeyEvent
  | release : NKey → KeyEvent
deriving DecidableEq

/-- The four modifier key codes special-cased by `sendKeys`. -/
def modifierList : List NKey :=
  [.leftControl, .leftShift, .leftAlt, .leftCmd]

/-- The `for (const key of keys)` loop of `sendKeys`: a modifier key not
yet held is pressed and added to the held set (in insertion order); a held
modifier is skipped; a regular key is pressed and released. -/
def sendKeysLoop : List Str → List NKey → List KeyEvent →
    List NKey × List KeyEvent
  | [], held, evs => (held, evs)
  | key :: rest, held, evs =>
    let kc := getKeyCode key
    if modifierList.contains kc then
      if held.contains kc then sendKeysLoop rest held evs
      else sendKeysLoop rest (held ++ [kc]) (evs ++ [.press kc])
    else sendKeysLoop rest held (evs ++ [.press kc, .release kc])

/-- `InputAutomationService.sendKeys` as a transformer of the held
modifier-key set, also returning the emitted event trace: after the key
loop, every held modifier is released and the set is cleared. -/
def sendKeys (keys : List Str) (held0 : List NKey) :
    List NKey × List KeyEvent :=
  let r := sendKeysLoop keys held0 []
  (([] : List NKey), r.2 ++ r.1.map KeyEvent.release)

/-! ### Safe spawn environment (`createSafeEnvironment`) -/

/-- The key `ELECTRON_ENABLE_LOGGING`. -/
def EEL : Str := "ELECTRON_ENABLE_LOGGING".toList

/-- The key `ELECTRON_ENABLE_STACK_DUMPING`. -/
def EESD : Str := "ELECTRON_ENABLE_STACK_DUMPING".toList

/-- `SAFE_ENV_KEYS`: the allow-list of ambient environment variable names
copied into the spawned process's environment. -/
def SAFE_ENV_KEYS : List Str :=
  ["PATH".toList, "HOME".toList, "USER".toList, "LANG".toList,
   "SHELL".toList, "DISPLAY".toList, EEL, EESD]

/-- JavaScript keyed assignment (`obj[k] = v`, `Map.set`) on an
insertion-ordered entry list with unique keys: replace the value in place
when the key exists, append otherwise. -/
def jsSet {β : Type} (m : List (Str × β)) (k : Str) (v : β) :
    List (Str × β) :=
  if m.any (fun e => e.1 = k) then
    m.map (fun e => if e.1 = k then (k, v) else e)
  else m ++ [(k, v)]

/-- JavaScript keyed read (`obj[k]`, `Map.get`) on an entry list. -/
def jsGet {β : Type} (m : List (Str × β)) (k : Str) : Option β :=
  (m.find? (fun e => e.1 = k)).map (fun e => e.2)

/-- JavaScript `Map.delete` on an entry list. -/
def jsDelete {β : Type} (m : List (Str × β)) (k : Str) : List (Str × β) :=
  m.filter (fun e => !(e.1 = k))

/-- Object assignment on the environment object. -/
abbrev setVar (env : List (Str × Str)) (k v : Str) : List (Str × Str) :=
  jsSet env k v

/-- Property read on the environment object. -/
abbrev envGet (env : List (Str × Str)) (k : Str) : Option Str :=
  jsGet env k

/-- `CursorInstanceManagerImpl.createSafeEnvironment`: copy the ambient
entries whose key is allow-listed, then force the two Electron variables
to the string `1`.  The ambient environment is its entry list
(`Object.entries(process.env)`, string values only). -/
def createSafeEnvironment (env : List (Str × Str)) : List (Str × Str) :=
  setVar
    (setVar (env.filter (fun e => SAFE_ENV_KEYS.contains e.1))
      EEL "1".toList)
    EESD "1".toList

/-! ### Instance lifecycle manager (`CursorInstanceManagerImpl`) -/

/-- Maximum number of concurrently registered instances
(`MAX_INSTANCES`). -/
def MAX_INSTANCES : Nat := 10

/-- A registered instance: id, lifecycle flag, whether a window reference
is attached, and the validated workspace path. -/
structure MInstance where
  id : Str
  isActive : Bool
  hasWindow : Bool
  workspacePath : Option Str
deriving DecidableEq

/-- The manager's `instances` map, modelled as an insertion-ordered entry
list with unique keys (a JavaScript `Map`). -/
abbrev MgrState := List (Str × MInstance)

/-- `validateInstanceId`: the regex `^[a-f0-9-]{36}$` — exactly 36
characters, each a lowercase hex digit or a hyphen. -/
def validInstanceId (id : Str) : Bool :=
  id.length = 36 &&
  id.all (fun c => c.isDigit || ('a' ≤ c && c ≤ 'f') || c = '-')

/-- `Map.get` on the instance map. -/
abbrev mapGet (s : MgrState) (id : Str) : Option MInstance := jsGet s id

/-- `Map.set` on the instance map. -/
abbrev mapSet (s : MgrState) (id : Str) (v : MInstance) : MgrState :=
  jsSet s id v

/-- `Map.delete` on the instance map. -/
abbrev mapDelete (s : MgrState) (id : Str) : MgrState := jsDelete s id

/-- `Map.size` on the instance map. -/
def mapSize (s : MgrState) : Nat := s.length

/-- The errors thrown by the instance manager's operations. -/
inductive MgrError where
  | invalidIdFormat : MgrError
  | noInstance : Str → MgrError
  | notActive : Str → MgrError
  | windowReferenceLost : MgrError
  | keysError : KeysError → MgrError
  | inputAutomation : Str → MgrError
  | limitReached : MgrError
  | invalidWorkspacePath : MgrError
  | executableNotFound : MgrError
  | spawnFailed : Str → MgrError
  | exitBeforeWindow : Option Int → MgrError
  | windowNotFoundAfterMaxAttempts : MgrError
  | invalidCharInCommand : Char → MgrError
  | commandTooLong : MgrError
deriving DecidableEq

/-- `CursorInstanceManagerImpl.get`: validate the id format (an invalid
id yields `undefined`), then read the map — with no check of
`isActive`. -/
def getOp (s : MgrState) (id : Str) : Option MInstance :=
  if validInstanceId id then mapGet s id else none

/-- `CursorInstanceManagerImpl.getRequired`: validate the id format, then
require the instance to exist and to be active. -/
def getRequired (s : MgrState) (id : Str) : Except MgrError MInstance :=
  if !validInstanceId id then .error .invalidIdFormat
  else
    match mapGet s id with
    | none => .error (.noInstance id)
    | some inst =>
      if !inst.isActive then .error (.notActive id) else .ok inst

/-- `sendKeyToInstance`: validate the keys, resolve the live instance,
require an attached window, then delegate to the window manager's
`sendKeys` (whose outcome is the `delegate` parameter; its failures are
`InputAutomationError`s). -/
def sendKeyToInstance (s : MgrState) (id : Str) (keys : List Str)
    (delegate : Except Str Unit) : Except MgrError Unit :=
  match validateKeys keys with
  | .error e => .error (.keysError e)
  | .ok _ =>
    match getRequired s id with
    | .error e => .error e
    | .ok inst =>
      if !inst.hasWindow then .error .windowReferenceLost
      else delegate.mapError MgrError.inputAutomation

/-- `openCommandPalette`: resolve the live instance, require a window,
validate the platform chord, then delegate. -/
def openCommandPalette (s : MgrState) (id : Str) (isDarwin : Bool)
    (delegate : Except Str Unit) : Except MgrError Unit :=
  match getRequired s id with
  | .error e => .error e
  | .ok inst =>
    if !inst.hasWindow then .error .windowReferenceLost
    else
      let modifier := if isDarwin then "command".toList else "control".toList
      match validateKeys [modifier, "shift".toList, 'p' :: []] with
      | .error e => .error (.keysError e)
      | .ok _ => delegate.mapError MgrError.inputAutomation

/-- The fixed command string typed by `openClineTab`. -/
def clineText : Str := "Cline: Open in New Tab".toList

/-- The per-character validation regex `^[a-zA-Z0-9\s:]+$` of
`openClineTab`, applied to a single character. -/
def clineCharOk (c : Char) : Bool :=
  (c.isAlpha && c.toNat < 128) || c.isDigit || isJsWhitespace c || c = ':'

/-- The character loop of `openClineTab`: each character is validated and
sent through the window manager (outcome `d i` for the i-th send). -/
def sendCharsLoop (d : Nat → Except Str Unit) :
    Nat → Str → Except MgrError Nat
  | i, [] => .ok i
  | i, c :: cs =>
    if !clineCharOk c then .error (.invalidCharInCommand c)
    else
      match (d i).mapError MgrError.inputAutomation with
      | .error e => .error e
      | .ok _ => sendCharsLoop d (i + 1) cs

/-- `openClineTab`: resolve the live instance, require a window, open the
command palette, type the fixed command character by character, then send
Enter. -/
def openClineTab (s : MgrState) (id : Str) (isDarwin : Bool)
    (dPalette : Except Str Unit) (dChar : Nat → Except Str Unit)
    (dEnter : Except Str Unit) : Except MgrError Unit :=
  match getRequired s id with
  | .error e => .error e
  | .ok inst =>
    if !inst.hasWindow then .error .windowReferenceLost
    else
      match openCommandPalette s id isDarwin dPalette with
      | .error e => .error e
      | .ok _ =>
        if 100 < clineText.length then .error .commandTooLong
        else
          match sendCharsLoop dChar 0 clineText with
          | .error e => .error e
          | .ok _ => dEnter.mapError MgrError.inputAutomation

/-- `remove`: validate the id; a missing instance yields `false`; a found
instance is sent `SIGTERM`, marked inactive and deleted (the delayed
`SIGKILL` escalation timer is outside this model).  Returns the flag, the
new state, and the signals sent. -/
def removeOp (s : MgrState) (id : Str) : Bool × MgrState × List Str :=
  if !validInstanceId id then (false, s, [])
  else
    match mapGet s id with
    | none => (false, s, [])
    | some _ => (true, mapDelete s id, ["SIGTERM".toList])

/-- How the window-resolution race of `create` settles: the poll finds a
window, the process emits `error` first, the process exits first, or the
ten poll attempts are exhausted. -/
inductive CreateEnv where
  | windowFound : CreateEnv
  | spawnError : Str → CreateEnv
  | exitBeforeWindow : Option Int → CreateEnv
  | pollExhausted : CreateEnv
deriving DecidableEq

/-- The observable outcome of one `create` call: the returned value or
thrown error, the final registry, whether a child process was spawned,
and the signals `create` itself sent to that child. -/
structure CreateResult where
  result : Except MgrError MInstance
  state : MgrState
  spawned : Bool
  signals : List Str
deriving DecidableEq

/-- `CursorInstanceManagerImpl.create`.  `wpOk` is the outcome of
`PathResolver.validateWorkspacePath` (the returned normalized path is
modelled as the input), `exeOk` the outcome of
`PathResolver.getCursorExecutablePath`.  The limit check precedes the
validations and the spawn; after a successful spawn the instance is
registered active; the window race then settles per `env`: a found window
is attached and the instance returned; on the `error` event, on process
exit, and on poll exhaustion the creation promise rejects and the catch
block marks the instance inactive and deletes it — no path of `create`
signals the child. -/
def createRun (s : MgrState) (newId : Str) (wp : Option Str)
    (wpOk : Bool) (exeOk : Bool) (env : CreateEnv) : CreateResult :=
  if MAX_INSTANCES ≤ mapSize s then
    ⟨.error .limitReached, s, false, []⟩
  else if wp.isSome && !wpOk then
    ⟨.error .invalidWorkspacePath, s, false, []⟩
  else if !exeOk then
    ⟨.error .executableNotFound, s, false, []⟩
  else
    let inst : MInstance := ⟨newId, true, false, wp⟩
    let s1 := mapSet s newId inst
    match env with
    | .windowFound =>
      let instW : MInstance := { inst with hasWindow := true }
      ⟨.ok instW, mapSet s1 newId instW, true, []⟩
    | .spawnError m =>
      ⟨.error (.spawnFailed m), mapDelete s1 newId, true, []⟩
    | .exitBeforeWindow code =>
      ⟨.error (.exitBeforeWindow code), mapDelete s1 newId, true, []⟩
    | .pollExhausted =>
      ⟨.error .windowNotFoundAfterMaxAttempts, mapDelete s1 newId, true, []⟩

/-- The reachable states of the instance manager.  A fresh uuid-shaped id
is assumed at every `create` (uuid collisions are ignored).  The
`processErrorLate` step is the `error`-event handler firing on an
instance whose creation already completed (the window was found, so the
creation promise is settled): the handler sets `isActive = false` and its
`reject` is a no-op, so the instance stays in the map.  `processExitLate`
is the `exit` handler on such an instance: it marks the instance inactive
and deletes it. -/
inductive Reachable : MgrState → Prop where
  | init : Reachable []
  | createStep (s : MgrState) (id : Str) (wp : Option Str)
      (wpOk exeOk : Bool) (env : CreateEnv) (h : Reachable s)
      (hv : validInstanceId id = true) (hfresh : mapGet s id = none) :
      Reachable (createRun s id wp wpOk exeOk env).state
  | processErrorLate (s : MgrState) (id : Str) (inst : MInstance)
      (h : Reachable s) (hmem : mapGet s id = some inst)
      (hwin : inst.hasWindow = true) :
      Reachable (mapSet s id { inst with isActive := false })
  | processExitLate (s : MgrState) (id : Str) (inst : MInstance)
      (h : Reachable s) (hmem : mapGet s id = some inst)
      (hwin : inst.hasWindow = true) :
      Reachable (mapDelete s id)
  | removeStep (s : MgrState) (id : Str) (h : Reachable s) :
      Reachable (removeOp s id).2.1

/-- A concrete uuid-shaped id. -/
def uuid0 : Str := "12345678-1234-4abc-8abc-123456789abc".toList

/-- The concrete instance after a successful `create`. -/
def instW0 : MInstance := ⟨uuid0, true, true, none⟩

/-- The same instance after a late process `error` event. -/
def instX0 : MInstance := ⟨uuid0, false, true, none⟩

/-- Registry holding the freshly created instance. -/
def stateA : MgrState := [(uuid0, instW0)]

/-- Registry holding the instance deactivated by the late error event. -/
def stateB : MgrState := [(uuid0, instX0)]

/-- A registry at the instance limit (ten dummy entries). -/
def stateFull : MgrState :=
  (List.range 10).map
    (fun i => (Char.ofNat (48 + i) :: "0345678-1234-4abc-8abc-123456789abc".toList,
      ⟨Char.ofNat (48 + i) :: "0345678-1234-4abc-8abc-123456789abc".toList,
        true, true, none⟩))

/-! ## Theorems -/

/-- Replacing a character that does not occur leaves the string
unchanged. -/
theorem replaceChar_eq_self (c : Char) (rep : Str) (t : Str)
    (h : ∀ x ∈ t, x ≠ c) : replaceChar c rep t = t := by
  induction t with
  | nil => rfl
  | cons x xs ih =>
    have hx : x ≠ c := h x (List.mem_cons_self x xs)
    simp only [replaceChar, if_neg hx]
    rw [ih (fun y hy => h y (List.mem_cons_of_mem x hy))]
    rfl

/-- A title containing none of the escaped characters is left unchanged
by the escaping chain. -/
theorem escapeTitle_eq_self (t : Str) (h : ∀ c ∈ t, c ∉ escapedChars) :
    escapeTitle t = t := by
  unfold escapeTitle
  have hb : ∀ x ∈ t, x ≠ bslash := by
    intro x hx; have := h x hx; simp [escapedChars] at this; exact this.1
  have hq : ∀ x ∈ t, x ≠ Char.ofNat 34 := by
    intro x hx; have := h x hx; simp [escapedChars] at this; exact this.2.1
  have ha : ∀ x ∈ t, x ≠ apos := by
    intro x hx; have := h x hx; simp [escapedChars] at this; exact this.2.2.1
  have hn : ∀ x ∈ t, x ≠ Char.ofNat 10 := by
    intro x hx; have := h x hx; simp [escapedChars] at this; exact this.2.2.2.1
  have hr : ∀ x ∈ t, x ≠ Char.ofNat 13 := by
    intro x hx; have := h x hx; simp [escapedChars] at this
    exact this.2.2.2.2.1
  have ht : ∀ x ∈ t, x ≠ Char.ofNat 9 := by
    intro x hx; have := h x hx; simp [escapedChars] at this
    exact this.2.2.2.2.2
  rw [replaceChar_eq_self _ _ _ hb, replaceChar_eq_self _ _ _ hq,
    replaceChar_eq_self _ _ _ ha, replaceChar_eq_self _ _ _ hn,
    replaceChar_eq_self _ _ _ hr, replaceChar_eq_self _ _ _ ht]

/-- C1: every title containing, case-insensitively, a phrase of the
sanitizer's blocklist of dangerous scripting sequences is rejected by
`sanitizeTitle` — the result is an error, never a sanitized value. -/
theorem sanitizeTitle_rejects_blocklisted (t d : Str)
    (hd : d ∈ dangerousSequences)
    (hc : hasSubstring (t.map Char.toLower) d = true) :
    (sanitizeTitle t).isOk = false := by
  unfold sanitizeTitle
  split
  · rfl
  split
  · rfl
  split
  · rfl
  cases hfind : dangerousSequences.find?
      (fun x => hasSubstring (t.map Char.toLower) x) with
  | some d2 => simp [hfind, Except.isOk, Except.toBool]
  | none =>
    exfalso
    have h := List.find?_eq_none.mp hfind d hd
    simp [hc] at h

/-- Witness for C1 at the concrete title `please quit now` and the
blocklisted phrase `quit`. -/
theorem sanitizeTitle_rejects_blocklisted_witness :
    "quit".toList ∈ dangerousSequences ∧
    (sanitizeTitle ("please quit now".toList)).isOk = false :=
  ⟨by decide,
    sanitizeTitle_rejects_blocklisted ("please quit now".toList)
      ("quit".toList) (by decide) (by decide)⟩

/-- C9 counterexample: the one-character title consisting of a double
quote is made only of allowed characters and contains no blocklisted
phrase, yet `sanitizeTitle` is not idempotent on it: sanitizing once
yields backslash-quote, sanitizing that again yields
backslash-backslash-backslash-quote. -/
theorem sanitizeTitle_not_idempotent_on_quote :
    ([Char.ofNat 34].all allowedChar = true) ∧
    (dangerousSequences.all
      (fun d => !hasSubstring ([Char.ofNat 34].map Char.toLower) d) = true) ∧
    (sanitizeTitle [Char.ofNat 34]).bind sanitizeTitle ≠
      sanitizeTitle [Char.ofNat 34] := by
  refine ⟨by decide, by decide, by decide⟩

/-- C9 amended: a nonempty title of at most 500 allowed characters
containing no blocklisted phrase is accepted and returned with the
literal-breaking characters (backslash, double quote, apostrophe,
newline, carriage return, tab) escaped; re-sanitizing is idempotent
exactly when the title contains none of those escaped characters (the
escaping is then the identity). -/
theorem sanitizeTitle_safe_title_roundtrip (t : Str) (h1 : t ≠ [])
    (h2 : t.length ≤ MAX_TITLE_LENGTH) (h3 : t.all allowedChar = true)
    (h4 : ∀ d ∈ dangerousSequences,
      hasSubstring (t.map Char.toLower) d = false) :
    sanitizeTitle t = .ok (escapeTitle t) ∧
    ((∀ c ∈ t, c ∉ escapedChars) →
      (sanitizeTitle t).bind sanitizeTitle = sanitizeTitle t) := by
  have hok : sanitizeTitle t = .ok (escapeTitle t) := by
    unfold sanitizeTitle
    rw [if_neg, if_neg, if_neg]
    · rw [List.find?_eq_none.mpr]
      intro d hd
      simp [h4 d hd]
    · simp [h3]
    · omega
    · simp [List.isEmpty_iff, h1]
  refine ⟨hok, fun hne => ?_⟩
  have heq : escapeTitle t = t := escapeTitle_eq_self t hne
  rw [hok, heq]
  simp only [Except.bind]
  rw [hok, heq]

/-- Witness for the amended C9 at the concrete title
`Editor [Document]`. -/
theorem sanitizeTitle_safe_title_roundtrip_witness :
    sanitizeTitle ("Editor [Document]".toList) =
      .ok (escapeTitle ("Editor [Document]".toList)) ∧
    (sanitizeTitle ("Editor [Document]".toList)).bind sanitizeTitle =
      sanitizeTitle ("Editor [Document]".toList) :=
  have h := sanitizeTitle_safe_title_roundtrip ("Editor [Document]".toList)
    (by decide) (by decide) (by decide) (by decide)
  ⟨h.1, h.2 (by decide)⟩

/-- `findKeyError` finds nothing exactly when every entry is at most 20
characters and matches the `allowedKeys` regex. -/
theorem findKeyError_eq_none_iff (keys : List Str) :
    findKeyError keys = none ↔
      ∀ k ∈ keys, k.length ≤ 20 ∧ keyRegexTest k = true := by
  unfold findKeyError
  rw [List.findSome?_eq_none_iff]
  constructor
  · intro h k hk
    have hko := h k hk
    by_cases h20 : 20 < k.length
    · simp [h20] at hko
    · refine ⟨by omega, ?_⟩
      by_cases hr : keyRegexTest k
      · exact hr
      · simp [h20, hr] at hko
  · intro h k hk
    obtain ⟨h1, h2⟩ := h k hk
    have h20 : ¬ 20 < k.length := by omega
    simp [h20, h2]

/-- C8 counterexample: the two-character entry `ab` is neither a single
printable-character key nor one of the named control keys, yet
`validateKeys` accepts it unchanged — the `allowedKeys` regex anchors only
its first and last alternatives, so any entry whose first character is in
the allowed class matches. -/
theorem validateKeys_accepts_multichar_entry :
    validateKeys [('a' :: 'b' :: [])] = .ok [('a' :: 'b' :: [])] ∧
    ('a' :: 'b' :: []).length ≠ 1 ∧
    ('a' :: 'b' :: []) ∉ namedControlKeys := by decide

/-- C8 amended: `validateKeys` returns the keys unchanged exactly when the
input is a nonempty sequence of at most 50 entries, each at most 20
characters and matched by the unanchored `allowedKeys` regex — first
character in the allowed class, or one of the thirteen bare key names
contained as a substring, or ending in `right`; otherwise it fails. -/
theorem validateKeys_ok_characterization (keys : List Str) :
    validateKeys keys = .ok keys ↔
      (keys ≠ [] ∧ keys.length ≤ 50 ∧
        ∀ k ∈ keys, k.length ≤ 20 ∧ keyRegexTest k = true) := by
  unfold validateKeys
  by_cases he : keys.isEmpty
  · rw [List.isEmpty_iff] at he
    simp [he]
  · rw [List.isEmpty_iff] at he
    simp only [List.isEmpty_iff, if_neg he]
    by_cases h50 : 50 < keys.length
    · simp [if_pos h50, he, h50]
    · rw [if_neg h50]
      cases hfe : findKeyError keys with
      | some e =>
        simp only []
        constructor
        · intro h; exact absurd h (by simp)
        · intro h
          rw [← findKeyError_eq_none_iff] at h
          rw [h.2.2] at hfe
          exact absurd hfe (by simp)
      | none =>
        have hall := (findKeyError_eq_none_iff keys).mp hfe
        have h50a : keys.length ≤ 50 := by omega
        simp [he, h50a]
        exact hall

/-- In-place replacement of the entries keyed `k` makes the lookup of `k`
return the new value, provided some entry has key `k`. -/
theorem find?_map_replace {β : Type} (k : Str) (v : β) :
    ∀ m : List (Str × β), m.any (fun e => e.1 = k) = true →
      (m.map (fun e => if e.1 = k then (k, v) else e)).find?
        (fun e => e.1 = k) = some (k, v) := by
  intro m
  induction m with
  | nil => intro h; exact absurd h (by simp only [List.any_nil]; decide)
  | cons e es ih =>
    intro h
    by_cases he : e.1 = k
    · rw [List.map_cons, if_pos he,
        List.find?_cons_of_pos _ (by simp)]
    · have hes : es.any (fun x => x.1 = k) = true := by
        simp only [List.any_cons, decide_eq_false he, Bool.false_or] at h
        exact h
      rw [List.map_cons, if_neg he,
        List.find?_cons_of_neg _ (by simpa using he)]
      exact ih hes

/-- In-place replacement of the entries keyed `k` does not affect the
lookup of another key. -/
theorem find?_map_replace_other {β : Type} (k k2 : Str) (v : β)
    (hne : k2 ≠ k) :
    ∀ m : List (Str × β),
      (m.map (fun e => if e.1 = k then (k, v) else e)).find?
        (fun e => e.1 = k2) = m.find? (fun e => e.1 = k2) := by
  intro m
  induction m with
  | nil => rfl
  | cons e es ih =>
    by_cases he : e.1 = k
    · have h1 : ¬ ((k, v).1 = k2) := fun hc => hne hc.symm
      have h2 : ¬ (e.1 = k2) := by rw [he]; exact fun hc => hne hc.symm
      rw [List.map_cons, if_pos he,
        List.find?_cons_of_neg _ (by simpa using h1),
        List.find?_cons_of_neg _ (by simpa using h2)]
      exact ih
    · rw [List.map_cons, if_neg he]
      by_cases hk2 : e.1 = k2
      · rw [List.find?_cons_of_pos _ (by simpa using hk2),
          List.find?_cons_of_pos _ (by simpa using hk2)]
      · rw [List.find?_cons_of_neg _ (by simpa using hk2),
          List.find?_cons_of_neg _ (by simpa using hk2)]
        exact ih

/-- Appending a fresh entry makes its key found, provided no entry had
the key. -/
theorem find?_append_fresh {β : Type} (k : Str) (v : β) :
    ∀ m : List (Str × β), m.any (fun e => e.1 = k) = false →
      (m ++ [(k, v)]).find? (fun e => e.1 = k) = some (k, v) := by
  intro m
  induction m with
  | nil =>
    intro _
    rw [List.nil_append, List.find?_cons_of_pos _ (by simp)]
  | cons e es ih =>
    intro h
    simp only [List.any_cons, Bool.or_eq_false_iff] at h
    rw [List.cons_append,
      List.find?_cons_of_neg _ (by simpa using h.1)]
    exact ih h.2

/-- Appending an entry with another key does not affect a lookup. -/
theorem find?_append_other {β : Type} (k k2 : Str) (v : β) (hne : k2 ≠ k) :
    ∀ m : List (Str × β),
      (m ++ [(k, v)]).find? (fun e => e.1 = k2) =
        m.find? (fun e => e.1 = k2) := by
  intro m
  induction m with
  | nil =>
    have h1 : ¬ ((k, v).1 = k2) := fun hc => hne hc.symm
    rw [List.nil_append,
      List.find?_cons_of_neg _ (by simpa using h1), List.find?_nil]
  | cons e es ih =>
    by_cases hk2 : e.1 = k2
    · rw [List.cons_append,
        List.find?_cons_of_pos _ (by simpa using hk2),
        List.find?_cons_of_pos _ (by simpa using hk2)]
    · rw [List.cons_append,
        List.find?_cons_of_neg _ (by simpa using hk2),
        List.find?_cons_of_neg _ (by simpa using hk2)]
      exact ih

/-- Reading the key just assigned returns the assigned value. -/
theorem jsGet_jsSet_same {β : Type} (m : List (Str × β)) (k : Str) (v : β) :
    jsGet (jsSet m k v) k = some v := by
  unfold jsSet jsGet
  by_cases h : m.any (fun e => e.1 = k)
  · rw [if_pos h, find?_map_replace k v m h]
    rfl
  · rw [if_neg h, find?_append_fresh k v m (Bool.eq_false_iff.mpr h)]
    rfl

/-- Assigning one key does not affect the read of another. -/
theorem jsGet_jsSet_other {β : Type} (m : List (Str × β)) (k k2 : Str)
    (v : β) (hne : k2 ≠ k) : jsGet (jsSet m k v) k2 = jsGet m k2 := by
  unfold jsSet jsGet
  by_cases h : m.any (fun e => e.1 = k)
  · rw [if_pos h, find?_map_replace_other k k2 v hne m]
  · rw [if_neg h, find?_append_other k k2 v hne m]

/-- Reading a deleted key returns nothing. -/
theorem jsGet_jsDelete_same {β : Type} (m : List (Str × β)) (k : Str) :
    jsGet (jsDelete m k) k = none := by
  unfold jsGet jsDelete
  rw [List.find?_eq_none.mpr]
  · rfl
  · intro e he
    have hmem := (List.mem_filter.mp he).2
    simp only [Bool.not_eq_true'] at hmem
    simpa using hmem

/-- A successful read through a filter exhibits a surviving entry. -/
theorem jsGet_filter_some {β : Type} (m : List (Str × β))
    (p : Str × β → Bool) (k : Str) (v : β)
    (h : jsGet (m.filter p) k = some v) :
    ∃ e ∈ m, p e = true ∧ e.1 = k := by
  unfold jsGet at h
  cases hf : (m.filter p).find? (fun e => e.1 = k) with
  | none =>
    rw [hf] at h
    exact Option.noConfusion h
  | some e =>
    have hmem := List.mem_of_find?_eq_some hf
    have hp := List.find?_some hf
    have hm := List.mem_filter.mp hmem
    exact ⟨e, hm.1, hm.2, of_decide_eq_true hp⟩

/-- Replacing the entries of a key rejected by the filter leaves the
filtered list unchanged. -/
theorem filter_map_replace {β : Type} (p : Str × β → Bool) (k : Str)
    (v : β) (hp : ∀ w : β, p (k, w) = false) :
    ∀ m : List (Str × β),
      (m.map (fun e => if e.1 = k then (k, v) else e)).filter p =
        m.filter p := by
  intro m
  induction m with
  | nil => rfl
  | cons e es ih =>
    by_cases he : e.1 = k
    · have hpe : p e = false := by
        have hee : e = (k, e.2) := by
          cases e with
          | mk a b => simp only at he; rw [he]
        rw [hee]; exact hp e.2
      simp only [List.map_cons, if_pos he, List.filter_cons, hp v, hpe,
        Bool.false_eq_true, if_neg]
      exact ih
    · simp only [List.map_cons, if_neg he, List.filter_cons]
      rw [ih]

/-- Assigning a key rejected by the filter leaves the filtered list
unchanged. -/
theorem filter_jsSet {β : Type} (m : List (Str × β)) (p : Str × β → Bool)
    (k : Str) (v : β) (hp : ∀ w : β, p (k, w) = false) :
    (jsSet m k v).filter p = m.filter p := by
  unfold jsSet
  by_cases h : m.any (fun e => e.1 = k)
  · rw [if_pos h, filter_map_replace p k v hp m]
  · rw [if_neg h, List.filter_append]
    simp [List.filter_cons, hp v]

/-- C5: the spawned environment contains only allow-listed keys, always
carries the two Electron automation variables set to `1`, and is
unaffected by any change to an ambient variable outside the allow-list
(two-run noninterference). -/
theorem createSafeEnvironment_allowlist (env : List (Str × Str)) :
    (∀ k v, envGet (createSafeEnvironment env) k = some v →
      SAFE_ENV_KEYS.contains k = true) ∧
    envGet (createSafeEnvironment env) EEL = some ('1' :: []) ∧
    envGet (createSafeEnvironment env) EESD = some ('1' :: []) ∧
    (∀ k v, SAFE_ENV_KEYS.contains k = false →
      createSafeEnvironment (setVar env k v) = createSafeEnvironment env) := by
  refine ⟨?_, ?_, ?_, ?_⟩
  · intro k v h
    unfold createSafeEnvironment envGet setVar at h
    by_cases hk2 : k = EESD
    · rw [hk2]; decide
    · rw [jsGet_jsSet_other _ _ _ _ hk2] at h
      by_cases hk1 : k = EEL
      · rw [hk1]; decide
      · rw [jsGet_jsSet_other _ _ _ _ hk1] at h
        obtain ⟨e, _, hp, hke⟩ := jsGet_filter_some _ _ _ _ h
        rw [← hke]
        exact hp
  · unfold createSafeEnvironment envGet setVar
    rw [jsGet_jsSet_other _ _ _ _ (by decide), jsGet_jsSet_same]
    decide
  · unfold createSafeEnvironment envGet setVar
    rw [jsGet_jsSet_same]
    decide
  · intro k v hk
    unfold createSafeEnvironment setVar
    rw [filter_jsSet env _ k v (fun _ => hk)]

/-- Witness for C5: assigning the non-allow-listed ambient variable
`AWS_SECRET_KEY` leaves the spawned environment identical. -/
theorem createSafeEnvironment_allowlist_witness :
    SAFE_ENV_KEYS.contains ("AWS_SECRET_KEY".toList) = false ∧
    createSafeEnvironment
        (setVar [("PATH".toList, "/usr/bin".toList)]
          ("AWS_SECRET_KEY".toList) ('x' :: [])) =
      createSafeEnvironment [("PATH".toList, "/usr/bin".toList)] :=
  ⟨by decide,
    (createSafeEnvironment_allowlist
        [("PATH".toList, "/usr/bin".toList)]).2.2.2
      ("AWS_SECRET_KEY".toList) ('x' :: []) (by decide)⟩

/-- The retry loop never invokes the operation more often than it has
attempts left. -/
theorem withRetryAux_opCalls_le {ε α : Type} (respond : Nat → Bool)
    (focusErr : Nat → Option ε) (op : Nat → Except ε α)
    (requireFocus : Bool) :
    ∀ (remaining attempt opCalls : Nat) (le : Option (RetryError ε)),
      (withRetryAux respond focusErr op requireFocus remaining attempt
        opCalls le).2 ≤ opCalls + remaining := by
  intro remaining
  induction remaining with
  | zero =>
    intro attempt opCalls le
    simp [withRetryAux]
  | succ n ih =>
    intro attempt opCalls le
    simp only [withRetryAux]
    by_cases hr : respond attempt = false
    · rw [if_pos hr]
      exact le_trans (ih _ _ _) (by omega)
    · rw [if_neg hr]
      cases hf : (if requireFocus then focusErr attempt else none) with
      | some e => exact le_trans (ih _ _ _) (by omega)
      | none =>
        cases hop : op attempt with
        | ok v => simp
        | error e => exact le_trans (ih _ _ _) (by omega)

/-- C6: against a target that always reports responding, an operation
that fails on its first two invocations and succeeds on the third makes
`withRetry` return the third invocation's success result after exactly 3
operation invocations; in general the operation is invoked at most
`MAX_RETRIES` (3) times, and a first-invocation success ends the loop
after exactly one invocation. -/
theorem withRetry_two_failures_then_success {ε α : Type} (v : α)
    (e1 e2 : ε) (respond : Nat → Bool) (focusErr : Nat → Option ε)
    (op : Nat → Except ε α) (hr : ∀ n, respond n = true)
    (h1 : op 1 = .error e1) (h2 : op 2 = .error e2) (h3 : op 3 = .ok v) :
    withRetry respond focusErr op false = (.ok v, 3) ∧
    (∀ op2 : Nat → Except ε α,
      (withRetry respond focusErr op2 false).2 ≤ MAX_RETRIES) ∧
    (∀ (op2 : Nat → Except ε α) (w : α), op2 1 = .ok w →
      withRetry respond focusErr op2 false = (.ok w, 1)) := by
  refine ⟨?_, ?_, ?_⟩
  · unfold withRetry MAX_RETRIES
    simp [withRetryAux, hr, h1, h2, h3]
  · intro op2
    unfold withRetry
    exact le_trans (withRetryAux_opCalls_le respond focusErr op2 false
      MAX_RETRIES 1 0 none) (by simp)
  · intro op2 w hw
    unfold withRetry MAX_RETRIES
    simp [withRetryAux, hr, hw]

/-- Witness for C6 at a concrete operation failing twice then returning
7, with an always-responding target. -/
theorem withRetry_two_failures_then_success_witness :
    withRetry (fun _ => true) (fun _ => (none : Option Unit))
      (fun n => if n = 3 then .ok 7 else .error ()) false =
      (.ok (7 : Nat), 3) :=
  (withRetry_two_failures_then_success 7 () () (fun _ => true)
    (fun _ => none) (fun n => if n = 3 then .ok 7 else .error ())
    (fun _ => rfl) (by decide) (by decide) (by decide)).1

/-- C7 counterexample: a fresh enumeration returning a window with the
handle's process id but an **empty** title makes
`BaseWindowManager.isWindowResponding` answer `true`, although the claim
requires the returned window to have a nonempty title; and the oracle
actually used by the retry wrapper, `WindowsApiService.isWindowResponding`,
never performs a fresh lookup at all — it answers `true` from the stale
handle even when the fresh enumeration is empty. -/
theorem isWindowResponding_ignores_title :
    isWindowResponding (ε := Unit)
      (.ok [⟨1, [], 42, none⟩]) ⟨1, [], 42, none⟩ = .ok true ∧
    (⟨1, [], 42, none⟩ : WindowInfo).title = [] ∧
    waIsWindowResponding ⟨2, 'C' :: [], 43, none⟩ = true ∧
    isWindowResponding (ε := Unit)
      (.ok []) ⟨2, 'C' :: [], 43, none⟩ = .ok false := by
  refine ⟨rfl, rfl, rfl, rfl⟩

/-- C7 amended: `BaseWindowManager.isWindowResponding` answers `true` iff
the fresh enumeration contains a window with the handle's process id —
the title of the found window is not inspected; a failed lookup raises
`WindowNotFoundError`, a window-manager error, which is converted to
`false` rather than propagated; and the retry wrapper's own oracle
(`WindowsApiService.isWindowResponding`) merely reports whether the
cached handle's title is nonempty, with no fresh lookup. -/
theorem isWindowResponding_characterization (ws : List WindowInfo)
    (h : WindowInfo) :
    (isWindowResponding (ε := Empty) (.ok ws) h = .ok true ↔
      ∃ w ∈ ws, w.processId = h.processId) ∧
    (isWindowResponding (ε := Empty) (.ok ws) h = .ok false ↔
      ∀ w ∈ ws, w.processId ≠ h.processId) ∧
    (∀ w : WindowInfo, waIsWindowResponding w = true ↔ w.title ≠ []) := by
  have hfwp : findWindowByProcessId (ε := Empty) (.ok ws) h.processId =
      (match ws.find? (fun w => w.processId = h.processId) with
       | some w => .ok w
       | none => .error (Sum.inr (.windowNotFound h.processId))) := rfl
  have hkey : isWindowResponding (ε := Empty) (.ok ws) h =
      .ok (ws.find? (fun w => w.processId = h.processId)).isSome := by
    unfold isWindowResponding
    rw [hfwp]
    cases ws.find? (fun w => w.processId = h.processId) <;> rfl
  refine ⟨?_, ?_, ?_⟩
  · rw [hkey]
    simp only [Except.ok.injEq]
    rw [show ((ws.find? (fun w => w.processId = h.processId)).isSome = true
        ↔ ∃ w ∈ ws, w.processId = h.processId) from by simp]
  · rw [hkey]
    simp only [Except.ok.injEq]
    constructor
    · intro hfalse w hw hp
      have : (ws.find? (fun w => w.processId = h.processId)).isSome = true := by
        simp only [List.find?_isSome]
        exact ⟨w, hw, by simpa using hp⟩
      rw [hfalse] at this
      exact Bool.noConfusion this
    · intro hall
      cases hf : ws.find? (fun w => w.processId = h.processId) with
      | none => rfl
      | some w =>
        have hpw := List.find?_some hf
        simp only [decide_eq_true_eq] at hpw
        exact absurd hpw (hall w (List.mem_of_find?_eq_some hf))
  · intro w
    unfold waIsWindowResponding
    cases w.title with
    | nil => simp
    | cons c cs => simp

/-- The held modifier set only grows during the key loop. -/
theorem sendKeysLoop_held_mono :
    ∀ (keys : List Str) (held : List NKey) (evs : List KeyEvent) (k : NKey),
      k ∈ held → k ∈ (sendKeysLoop keys held evs).1 := by
  intro keys
  induction keys with
  | nil => intro held evs k hk; exact hk
  | cons key rest ih =>
    intro held evs k hk
    simp only [sendKeysLoop]
    by_cases hm : modifierList.contains (getKeyCode key)
    · rw [if_pos hm]
      by_cases hh : held.contains (getKeyCode key)
      · rw [if_pos hh]; exact ih _ _ k hk
      · rw [if_neg hh]
        exact ih _ _ k (List.mem_append_left _ hk)
    · rw [if_neg hm]; exact ih _ _ k hk

/-- A modifier key pressed by the key loop (beyond the events already
recorded) ends the loop in the held set. -/
theorem sendKeysLoop_press_mod :
    ∀ (keys : List Str) (held : List NKey) (evs : List KeyEvent) (k : NKey),
      modifierList.contains k = true →
      KeyEvent.press k ∈ (sendKeysLoop keys held evs).2 →
      KeyEvent.press k ∈ evs ∨ k ∈ (sendKeysLoop keys held evs).1 := by
  intro keys
  induction keys with
  | nil => intro held evs k _ hp; exact Or.inl hp
  | cons key rest ih =>
    intro held evs k hmod hp
    simp only [sendKeysLoop] at hp ⊢
    by_cases hm : modifierList.contains (getKeyCode key)
    · rw [if_pos hm] at hp ⊢
      by_cases hh : held.contains (getKeyCode key)
      · rw [if_pos hh] at hp ⊢
        exact ih _ _ k hmod hp
      · rw [if_neg hh] at hp ⊢
        rcases ih _ _ k hmod hp with h | h
        · rcases List.mem_append.mp h with h2 | h2
          · exact Or.inl h2
          · have hk : k = getKeyCode key := by
              simp only [List.mem_singleton, KeyEvent.press.injEq] at h2
              exact h2
            refine Or.inr (sendKeysLoop_held_mono rest _ _ k ?_)
            rw [hk]
            exact List.mem_append_right _ (List.mem_singleton.mpr rfl)
        · exact Or.inr h
    · rw [if_neg hm] at hp ⊢
      rcases ih _ _ k hmod hp with h | h
      · rcases List.mem_append.mp h with h2 | h2
        · exact Or.inl h2
        · exfalso
          simp only [List.mem_cons, List.mem_singleton] at h2
          rcases h2 with h3 | h3
          · have hk : k = getKeyCode key := by
              injection h3
            rw [hk] at hmod
            rw [hmod] at hm
            exact hm rfl
          · rcases h3 with h4 | h4
            · exact KeyEvent.noConfusion h4
            · exact absurd h4 (by simp)
      · exact Or.inr h

/-- C10: after `InputAutomationService.sendKeys` completes, the held
modifier-key set is empty — whatever it held before the call — and every
modifier key the call pressed is also released within the call's event
trace. -/
theorem sendKeys_releases_modifiers (keys : List Str) (held0 : List NKey) :
    (sendKeys keys held0).1 = [] ∧
    (∀ k, modifierList.contains k = true →
      KeyEvent.press k ∈ (sendKeys keys held0).2 →
      KeyEvent.release k ∈ (sendKeys keys held0).2) := by
  refine ⟨rfl, ?_⟩
  intro k hmod hp
  have hp2 : KeyEvent.press k ∈ (sendKeysLoop keys held0 []).2 ++
      (sendKeysLoop keys held0 []).1.map KeyEvent.release := hp
  show KeyEvent.release k ∈ (sendKeysLoop keys held0 []).2 ++
    (sendKeysLoop keys held0 []).1.map KeyEvent.release
  rcases List.mem_append.mp hp2 with h | h
  · rcases sendKeysLoop_press_mod keys held0 [] k hmod h with h2 | h2
    · exact absurd h2 (List.not_mem_nil _)
    · exact List.mem_append_right _ (List.mem_map.mpr ⟨k, h2, rfl⟩)
  · exfalso
    obtain ⟨a, _, ha⟩ := List.mem_map.mp h
    exact KeyEvent.noConfusion ha

/-- Witness for C10: the call sending `control` then `c` presses the
left-control modifier and indeed releases it before returning. -/
theorem sendKeys_releases_modifiers_witness :
    KeyEvent.release NKey.leftControl ∈
      (sendKeys ("control".toList :: ('c' :: []) :: []) []).2 :=
  (sendKeys_releases_modifiers ("control".toList :: ('c' :: []) :: [])
      []).2 NKey.leftControl (by decide) (by decide)

/-- C2 counterexample: after a successful `create` the process `error`
event can fire with the creation promise already settled; the handler
marks the instance inactive but deletes nothing, so the resulting
registry is reachable — and `get` then returns the stored instance even
though `isActive = false`, because `get` never checks the flag. -/
theorem get_returns_inactive_instance :
    Reachable stateB ∧ getOp stateB uuid0 = some instX0 ∧
      instX0.isActive = false := by
  refine ⟨?_, by decide, by decide⟩
  have h1 := Reachable.createStep [] uuid0 none true true .windowFound
    Reachable.init (by decide) (by decide)
  have e1 : (createRun [] uuid0 none true true .windowFound).state =
      stateA := by decide
  rw [e1] at h1
  have h2 := Reachable.processErrorLate stateA uuid0 instW0 h1
    (by decide) (by decide)
  have e2 : mapSet stateA uuid0 { instW0 with isActive := false } =
      stateB := by decide
  rw [e2] at h2
  exact h2

/-- C2 amended: when the stored instance under an id is inactive,
`getRequired` never returns it and every command operation
(`sendKeyToInstance`, `openCommandPalette`, `openClineTab`) fails for
that id; but the lookup `get` does return the stored inactive instance
whenever the id is well-formed — `get` validates only the id format. -/
theorem inactive_instance_rejected_by_commands (s : MgrState) (id : Str)
    (inst : MInstance) (hs : mapGet s id = some inst)
    (hin : inst.isActive = false) :
    (∀ i, getRequired s id ≠ .ok i) ∧
    (∀ keys d, sendKeyToInstance s id keys d ≠ .ok ()) ∧
    (∀ b d, openCommandPalette s id b d ≠ .ok ()) ∧
    (∀ b dp dc de, openClineTab s id b dp dc de ≠ .ok ()) ∧
    getOp s id = (if validInstanceId id then some inst else none) := by
  have hreq : ∀ i, getRequired s id ≠ .ok i := by
    intro i
    unfold getRequired
    by_cases hv : validInstanceId id = true
    · simp [hv, hs, hin]
    · have hv2 := Bool.eq_false_iff.mpr hv
      simp [hv2]
  obtain ⟨e0, he0⟩ : ∃ e, getRequired s id = .error e := by
    cases hg : getRequired s id with
    | ok i => exact absurd hg (hreq i)
    | error e => exact ⟨e, rfl⟩
  refine ⟨hreq, ?_, ?_, ?_, ?_⟩
  · intro keys d
    unfold sendKeyToInstance
    cases hk : validateKeys keys with
    | error e => simp
    | ok ks => rw [he0]; simp
  · intro b d
    unfold openCommandPalette
    rw [he0]; simp
  · intro b dp dc de
    unfold openClineTab
    rw [he0]; simp
  · unfold getOp
    by_cases hv : validInstanceId id = true
    · rw [if_pos hv, if_pos hv]; exact hs
    · rw [if_neg hv, if_neg hv]

/-- Witness for the amended C2 at the reachable registry holding the
deactivated instance. -/
theorem inactive_instance_rejected_by_commands_witness :
    getRequired stateB uuid0 ≠ .ok instX0 ∧
    sendKeyToInstance stateB uuid0 (('a' :: []) :: []) (.ok ()) ≠
      .ok () ∧
    openCommandPalette stateB uuid0 false (.ok ()) ≠ .ok () ∧
    getOp stateB uuid0 = some instX0 :=
  have h := inactive_instance_rejected_by_commands stateB uuid0 instX0
    (by decide) (by decide)
  ⟨h.1 instX0, h.2.1 (('a' :: []) :: []) (.ok ()),
    h.2.2.1 false (.ok ()), by rw [h.2.2.2.2]; decide⟩

/-- C3 counterexample: on the poll-exhaustion failure path, `create`
spawned a process and surfaces the bounded-attempts error with the
registry record removed — but it sends the spawned child no termination
signal whatsoever, so the process is not torn down. -/
theorem create_poll_exhaustion_never_kills :
    (createRun [] uuid0 none true true .pollExhausted).spawned = true ∧
    (createRun [] uuid0 none true true .pollExhausted).result =
      .error .windowNotFoundAfterMaxAttempts ∧
    mapGet (createRun [] uuid0 none true true .pollExhausted).state uuid0 =
      none ∧
    (createRun [] uuid0 none true true .pollExhausted).signals = [] := by
  decide

/-- C3 amended: every failure path of `create` removes the instance
record before the error surfaces, and an instance is returned only when
the window race found a window — the returned instance is active, has
the window attached and is registered; but `create` itself never signals
the spawned child on any path. -/
theorem createRun_failure_teardown (s : MgrState) (id : Str)
    (wp : Option Str) (wpOk exeOk : Bool) (env : CreateEnv)
    (hfresh : mapGet s id = none) :
    ((createRun s id wp wpOk exeOk env).result.isOk = false →
      mapGet (createRun s id wp wpOk exeOk env).state id = none) ∧
    (∀ inst, (createRun s id wp wpOk exeOk env).result = .ok inst →
      env = .windowFound ∧ inst.isActive = true ∧ inst.hasWindow = true ∧
      mapGet (createRun s id wp wpOk exeOk env).state id = some inst) ∧
    (createRun s id wp wpOk exeOk env).signals = [] := by
  unfold createRun
  by_cases h1 : MAX_INSTANCES ≤ mapSize s
  · rw [if_pos h1]
    exact ⟨fun _ => hfresh, fun inst hinst => absurd hinst (by simp), rfl⟩
  · rw [if_neg h1]
    by_cases h2 : (wp.isSome && !wpOk) = true
    · rw [if_pos h2]
      exact ⟨fun _ => hfresh, fun inst hinst => absurd hinst (by simp), rfl⟩
    · rw [if_neg h2]
      by_cases h3 : (!exeOk) = true
      · rw [if_pos h3]
        exact ⟨fun _ => hfresh, fun inst hinst => absurd hinst (by simp),
          rfl⟩
      · rw [if_neg h3]
        cases env with
        | windowFound =>
          refine ⟨fun hc => absurd hc (by simp [Except.isOk, Except.toBool]),
            fun inst hinst => ?_, rfl⟩
          have hi : inst = ⟨id, true, true, wp⟩ := by
            simpa using hinst.symm
          refine ⟨rfl, by rw [hi], by rw [hi], ?_⟩
          rw [hi]
          exact jsGet_jsSet_same _ _ _
        | spawnError m =>
          exact ⟨fun _ => jsGet_jsDelete_same _ _,
            fun inst hinst => absurd hinst (by simp), rfl⟩
        | exitBeforeWindow code =>
          exact ⟨fun _ => jsGet_jsDelete_same _ _,
            fun inst hinst => absurd hinst (by simp), rfl⟩
        | pollExhausted =>
          exact ⟨fun _ => jsGet_jsDelete_same _ _,
            fun inst hinst => absurd hinst (by simp), rfl⟩

/-- Witness for the amended C3 at a concrete spawn-error run. -/
theorem createRun_failure_teardown_witness :
    mapGet (createRun [] uuid0 none true true
      (.spawnError ('x' :: []))).state uuid0 = none ∧
    (createRun [] uuid0 none true true
      (.spawnError ('x' :: []))).signals = [] :=
  have h := createRun_failure_teardown [] uuid0 none true true
    (.spawnError ('x' :: [])) (by decide)
  ⟨h.1 (by decide), h.2.2⟩

/-- C4: a `create` call finding the registry at the configured maximum
(10) fails with the instance-limit error, spawns no process and leaves
the registry unchanged. -/
theorem create_at_limit_rejected (s : MgrState) (id : Str)
    (wp : Option Str) (wpOk exeOk : Bool) (env : CreateEnv)
    (h : mapSize s = MAX_INSTANCES) :
    createRun s id wp wpOk exeOk env =
      ⟨.error .limitReached, s, false, []⟩ := by
  unfold createRun
  rw [if_pos (by omega)]

/-- Witness for C4 at a concrete ten-entry registry. -/
theorem create_at_limit_rejected_witness :
    createRun stateFull uuid0 none true true .windowFound =
      ⟨.error .limitReached, stateFull, false, []⟩ :=
  create_at_limit_rejected stateFull uuid0 none true true .windowFound
    (by decide)

end CursorMCP
